import Mathlib

/-!
# Redaction processor: policy compilation and the per-batch transform

A shallow embedding of `processor/redactionprocessor` (`config.go`,
`processor.go`).

Modelling conventions.

* A Go `map[string]V` is a finite partial function from keys to values; it is
  embedded as `GoMap V = String → Option V`.  `m[k] = v` is `GoMap.set`,
  `make(map[string]V, n)` and `map[string]V{}` are `GoMap.empty` (the capacity
  hint has no observable effect).  Two Go maps hold the same entries exactly when
  the two functions are equal.
* A Go `error` is embedded as its message; a result pair `(x, err)` is a Lean pair
  of options, `none` standing for `nil`.
* `regexp.Compile` belongs to the Go standard library.  It is a parameter
  `compile : String → Except GoError R` of the functions that call it, `R` being
  the type of compiled expressions.
* `pdata.Traces` belongs to the collector library.  It is embedded as the tree
  resource spans / instrumentation library spans / spans, each span carrying its
  attribute list.
* The logger calls and the `context.Context` argument do not influence any
  returned value and are left out; `next` is never used by the code embedded here.
-/

namespace redactionprocessor

/-! ## Go maps -/

/-- A Go `map[string]V`. -/
abbrev GoMap (V : Type) : Type := String → Option V

/-- The map without entries: `make(map[string]V, n)`, `map[string]V{}`. -/
def GoMap.empty {V : Type} : GoMap V := fun _ => none

/-- The assignment `m[k] = v`. -/
def GoMap.set {V : Type} (m : GoMap V) (k : String) (v : V) : GoMap V :=
  fun k' => if k' = k then some v else m k'

/-- A Go `error`, by its message. -/
abbrev GoError : Type := String

/-! ## config.go -/

/-- The `Limits` struct. -/
structure Limits where
  MaxValueLength : Int
  LimitExceptions : List String
deriving DecidableEq, Repr

/-- The `Config` struct (the embedded `config.ProcessorSettings` carries the
component id only). -/
structure Config where
  AllowedKeys : List String
  BlockedValues : List String
  DryRun : Bool
  Limits : Limits
  MetricTags : List String
  Summary : String
deriving DecidableEq, Repr

/-! ## processor.go: constants -/

def Debug : String := "debug"
def Info : String := "info"
def Silent : String := "silent"
def RedactedKeys : String := "redacted_keys"
def RedactedKeyCount : String := "redacted_key_count"
def MaskedValues : String := "masked_values"
def MaskedValueCount : String := "masked_value_count"
def TruncatedValues : String := "truncated_values"
def TruncatedValueCount : String := "truncated_value_count"

def ErrRegexCompilation : String := "error_regex_compilation"

/-! ## processor.go: lookup tables -/

/-- The local `redactionKeys` of `makeAllowList`. -/
def redactionKeys : List String :=
  [RedactedKeys, RedactedKeyCount, MaskedValues, MaskedValueCount, TruncatedValues,
    TruncatedValueCount]

/-- The loop `for _, key := range keys { m[key] = key }`. -/
def setEach (keys : List String) (m : GoMap String) : GoMap String :=
  keys.foldl (fun acc key => acc.set key key) m

/-- `makeAllowList` sets up a lookup table of allowed span attribute keys. -/
def makeAllowList (c : Config) : GoMap String :=
  let allowList : GoMap String := GoMap.empty
  let allowList := setEach c.AllowedKeys allowList
  let allowList := setEach redactionKeys allowList
  allowList

/-- Result of `makeBlockRegexList` over the patterns still to be visited: the loop
`for _, pattern := range config.BlockedValues`, leaving at the first pattern that
does not compile.  The `nil` map of the error return reads as the empty map. -/
def makeBlockRegexList.loop {R : Type} (compile : String → Except GoError R) :
    List String → GoMap R → GoMap R × Option GoError
  | [], blockRegexList => (blockRegexList, none)
  | pattern :: rest, blockRegexList =>
    match compile pattern with
    | .error err => (GoMap.empty, some err)
    | .ok re => makeBlockRegexList.loop compile rest (blockRegexList.set pattern re)

/-- `makeBlockRegexList` precompiles all the blocked regex patterns. -/
def makeBlockRegexList {R : Type} (compile : String → Except GoError R) (config : Config) :
    GoMap R × Option GoError :=
  makeBlockRegexList.loop compile config.BlockedValues GoMap.empty

/-- `makeTruncateExceptionsMap` creates a lookup table of attributes to not truncate. -/
def makeTruncateExceptionsMap (config : Config) : GoMap String :=
  setEach config.Limits.LimitExceptions GoMap.empty

/-! ## processor.go: the processor -/

/-- The opencensus `tag.Key`, by its name. -/
structure tag.Key where
  name : String
deriving DecidableEq, Repr

/-- The `redaction` struct. -/
structure redaction (R : Type) where
  allowList : GoMap String
  blockRegexList : GoMap R
  config : Config
  limitExceptionList : GoMap String
  metricTagKeys : GoMap tag.Key

/-- `newRedaction` creates a new instance of the redaction processor.  The
assignment `config.Summary = Info` goes through the pointer the instance keeps,
so the instance holds the updated configuration. -/
def newRedaction {R : Type} (compile : String → Except GoError R) (config : Config) :
    Option (redaction R) × Option GoError :=
  let config := if config.Summary = "" then { config with Summary := Info } else config
  let allowList := makeAllowList config
  match makeBlockRegexList compile config with
  | (_, some err) => (none, some err)
  | (blockRegexList, none) =>
    let limitExceptionList := makeTruncateExceptionsMap config
    let metricTagKeys : GoMap tag.Key := GoMap.empty
    (some
      { allowList := allowList
        blockRegexList := blockRegexList
        config := config
        limitExceptionList := limitExceptionList
        metricTagKeys := metricTagKeys }, none)

/-! ## Span batches -/

/-- A `pdata.AttributeValue` of one of the scalar kinds. -/
inductive pdata.AttributeValue where
  | empty
  | string (v : String)
  | int (v : Int)
  | bool (v : Bool)
deriving DecidableEq, Repr

/-- A `pdata.Span`: its name and its attributes, in order. -/
structure pdata.Span where
  name : String
  attributes : List (String × pdata.AttributeValue)
deriving DecidableEq, Repr

/-- A `pdata.InstrumentationLibrarySpans`. -/
structure pdata.InstrumentationLibrarySpans where
  spans : List pdata.Span
deriving DecidableEq, Repr

/-- A `pdata.ResourceSpans`. -/
structure pdata.ResourceSpans where
  resourceAttributes : List (String × pdata.AttributeValue)
  instrumentationLibrarySpans : List pdata.InstrumentationLibrarySpans
deriving DecidableEq, Repr

/-- A `pdata.Traces`, the batch handed to the processor. -/
structure pdata.Traces where
  resourceSpans : List pdata.ResourceSpans
deriving DecidableEq, Repr

/-- All spans of a batch, in batch order. -/
def pdata.Traces.spans (batch : pdata.Traces) : List pdata.Span :=
  (batch.resourceSpans.map fun rs =>
    (rs.instrumentationLibrarySpans.map fun ils => ils.spans).flatten).flatten

/-- `consumer.Capabilities`. -/
structure consumer.Capabilities where
  MutatesData : Bool
deriving DecidableEq, Repr

/-- `ProcessTraces` processes the incoming data and returns the data to be sent
to the next component. -/
def redaction.ProcessTraces {R : Type} (_s : redaction R) (batch : pdata.Traces) :
    pdata.Traces × Option GoError :=
  (batch, none)

/-- `ConsumeTraces` implements the SpanProcessor interface. -/
def redaction.ConsumeTraces {R : Type} (_s : redaction R) (_batch : pdata.Traces) :
    Option GoError :=
  none

/-- `Capabilities` specifies what this processor does, such as whether it mutates
data. -/
def redaction.Capabilities {R : Type} (_s : redaction R) : consumer.Capabilities :=
  { MutatesData := true }

/-! ## A fragment of Go regular expressions

Concrete configurations need a concrete `regexp.Compile`.  The fragment below
covers patterns built from ordinary characters, the class `\d` and the counted
repetition `{n}` of the preceding item; on these it agrees with Go (unanchored
search, `\d` the ASCII digits, counts up to 1000).  What lies outside the fragment
is rejected here, among it every pattern with an unbalanced parenthesis or
bracket, which Go rejects as well. -/

/-- One position of a compiled pattern. -/
inductive regexp.Atom where
  | lit (c : Char)
  | digit
deriving DecidableEq, Repr

/-- A compiled pattern of the fragment: an atom and how often it is repeated, in
order. -/
abbrev regexp.Regexp : Type := List (regexp.Atom × Nat)

/-- Where the reader of a pattern stands: between items, after a backslash, or
inside the braces of a repetition with the digits read so far. -/
inductive regexp.Mode where
  | normal
  | escape
  | count (n : Option Nat)
deriving DecidableEq, Repr

/-- The characters with a special meaning in a pattern. -/
def regexp.isMeta (c : Char) : Bool :=
  c ∈ ['\\', '.', '+', '*', '?', '(', ')', '|', '[', ']', '{', '}', '^', '$']

/-- Reads one character of a pattern; `none` once the pattern is rejected.  The
items read so far are kept last first, each with its repetition if it has one. -/
def regexp.step : Option (List (regexp.Atom × Option Nat) × regexp.Mode) → Char →
    Option (List (regexp.Atom × Option Nat) × regexp.Mode)
  | none, _ => none
  | some (items, .normal), c =>
    if c = '\\' then some (items, .escape)
    else if c = '{' then
      match items with
      | (_, none) :: _ => some (items, .count none)
      | _ => none
    else if regexp.isMeta c then none
    else some ((.lit c, none) :: items, .normal)
  | some (items, .escape), c =>
    if c = 'd' then some ((.digit, none) :: items, .normal) else none
  | some (items, .count n), c =>
    if c.isDigit then
      match n with
      | none => some (items, .count (some (c.toNat - 48)))
      | some 0 => none
      | some k => some (items, .count (some (10 * k + (c.toNat - 48))))
    else if c = '}' then
      match n, items with
      | some k, (a, _) :: rest =>
        if k ≤ 1000 then some ((a, some k) :: rest, .normal) else none
      | _, _ => none
    else none

/-- The fragment's `regexp.Compile`. -/
def regexp.Compile (expr : String) : Except GoError regexp.Regexp :=
  match expr.toList.foldl regexp.step (some ([], .normal)) with
  | some (items, .normal) => .ok (items.reverse.map fun item => (item.1, item.2.getD 1))
  | _ => .error ("error parsing regexp: " ++ expr)

/-- Whether an atom accepts a character. -/
def regexp.Atom.accepts : regexp.Atom → Char → Bool
  | .lit c, d => c = d
  | .digit, d => d.isDigit

/-- Whether the text starts with `n` characters accepted by the atom; the rest of
the text if so. -/
def regexp.takeRepeat (a : regexp.Atom) : Nat → List Char → Option (List Char)
  | 0, text => some text
  | _ + 1, [] => none
  | n + 1, d :: text => if a.accepts d then regexp.takeRepeat a n text else none

/-- Whether the text starts with a match of the pattern. -/
def regexp.matchPrefix : regexp.Regexp → List Char → Bool
  | [], _ => true
  | (a, n) :: rest, text =>
    match regexp.takeRepeat a n text with
    | some text' => regexp.matchPrefix rest text'
    | none => false

/-- The method `MatchString`: whether the text contains a match of the pattern. -/
def regexp.MatchString (re : regexp.Regexp) (s : String) : Bool :=
  s.toList.tails.any (regexp.matchPrefix re)

/-! ## Concrete configurations and batches -/

/-- Allowed key `http.method`, summary `debug`. -/
def scenarioA : Config :=
  { AllowedKeys := ["http.method"], BlockedValues := [], DryRun := false,
    Limits := { MaxValueLength := 0, LimitExceptions := [] }, MetricTags := [],
    Summary := "debug" }

/-- Allowed key `ssn`, one blocked value pattern, summary left empty. -/
def scenarioB : Config :=
  { AllowedKeys := ["ssn"], BlockedValues := ["\\d{3}-\\d{2}-\\d{4}"], DryRun := false,
    Limits := { MaxValueLength := 0, LimitExceptions := [] }, MetricTags := [],
    Summary := "" }

/-- The configuration of `scenarioA` in dry run mode, with a metric tag and silent
summary. -/
def scenarioD : Config :=
  { AllowedKeys := ["http.method"], BlockedValues := [], DryRun := true,
    Limits := { MaxValueLength := 0, LimitExceptions := [] }, MetricTags := ["http.method"],
    Summary := "silent" }

/-- A configuration whose second blocked value pattern does not compile. -/
def scenarioBad : Config :=
  { AllowedKeys := ["ssn"], BlockedValues := ["\\d{3}", "("], DryRun := false,
    Limits := { MaxValueLength := 0, LimitExceptions := [] }, MetricTags := [],
    Summary := "info" }

/-- The processor `newRedaction` builds from `scenarioA`. -/
def redactionA : redaction regexp.Regexp :=
  { allowList := makeAllowList scenarioA
    blockRegexList := GoMap.empty
    config := scenarioA
    limitExceptionList := GoMap.empty
    metricTagKeys := GoMap.empty }

/-- The processor `newRedaction` builds from `scenarioB`. -/
def redactionB : redaction regexp.Regexp :=
  { allowList := makeAllowList scenarioB
    blockRegexList := GoMap.empty.set "\\d{3}-\\d{2}-\\d{4}"
      [(.digit, 3), (.lit '-', 1), (.digit, 2), (.lit '-', 1), (.digit, 4)]
    config := { scenarioB with Summary := "info" }
    limitExceptionList := GoMap.empty
    metricTagKeys := GoMap.empty }

/-- The processor `newRedaction` builds from `scenarioD`. -/
def redactionD : redaction regexp.Regexp :=
  { allowList := makeAllowList scenarioD
    blockRegexList := GoMap.empty
    config := scenarioD
    limitExceptionList := GoMap.empty
    metricTagKeys := GoMap.empty }

/-- A batch of one span with attributes `http.method` and `user.email`. -/
def batchA : pdata.Traces :=
  { resourceSpans :=
      [{ resourceAttributes := []
         instrumentationLibrarySpans :=
          [{ spans :=
              [{ name := "request"
                 attributes :=
                  [("http.method", .string "GET"), ("user.email", .string "a@b.com")] }] }] }] }

/-- A batch of two spans, the first with the attribute `ssn`. -/
def batchB : pdata.Traces :=
  { resourceSpans :=
      [{ resourceAttributes := []
         instrumentationLibrarySpans :=
          [{ spans :=
              [{ name := "lookup", attributes := [("ssn", .string "123-45-6789")] },
               { name := "reply", attributes := [] }] }] }] }

/-! ## Lemmas on the lookup tables -/

theorem setEach_apply (keys : List String) (m : GoMap String) (k : String) :
    setEach keys m k = if k ∈ keys then some k else m k := by
  induction keys generalizing m with
  | nil => simp [setEach]
  | cons a ks ih =>
    have h := ih (m.set a a)
    unfold setEach at h ⊢
    rw [List.foldl_cons, h]
    by_cases hk : k ∈ ks
    · simp [hk]
    · by_cases ha : k = a
      · subst ha
        simp [GoMap.set]
      · simp [hk, ha, GoMap.set]

theorem makeAllowList_apply (c : Config) (k : String) :
    makeAllowList c k = if k ∈ c.AllowedKeys ∨ k ∈ redactionKeys then some k else none := by
  unfold makeAllowList
  simp only [setEach_apply, GoMap.empty]
  by_cases h1 : k ∈ redactionKeys
  · simp [h1]
  · by_cases h2 : k ∈ c.AllowedKeys <;> simp [h1, h2]

theorem loop_of_all_ok {R : Type} (compile : String → Except GoError R) (ps : List String)
    (h : ∀ p ∈ ps, ∃ re, compile p = .ok re) (m : GoMap R) :
    makeBlockRegexList.loop compile ps m
      = (fun k => if k ∈ ps then (compile k).toOption else m k, none) := by
  induction ps generalizing m with
  | nil => simp [makeBlockRegexList.loop]
  | cons p ps ih =>
    obtain ⟨re, hre⟩ := h p (List.mem_cons_self p ps)
    have hps : ∀ q ∈ ps, ∃ re, compile q = .ok re :=
      fun q hq => h q (List.mem_cons_of_mem p hq)
    simp only [makeBlockRegexList.loop, hre]
    rw [ih hps]
    congr 1
    funext k
    by_cases hk : k ∈ ps
    · simp [hk]
    · by_cases hp : k = p
      · subst hp
        simp [hk, GoMap.set, hre, Except.toOption]
      · simp [hk, hp, GoMap.set]

theorem loop_of_error {R : Type} (compile : String → Except GoError R) (ps : List String)
    (h : ∃ p ∈ ps, ∃ err, compile p = .error err) (m : GoMap R) :
    ∃ err, makeBlockRegexList.loop compile ps m = (GoMap.empty, some err) := by
  induction ps generalizing m with
  | nil =>
    obtain ⟨p, hp, _⟩ := h
    simp at hp
  | cons q ps ih =>
    cases hq : compile q with
    | error err => exact ⟨err, by simp [makeBlockRegexList.loop, hq]⟩
    | ok re =>
      have hrest : ∃ p ∈ ps, ∃ err, compile p = .error err := by
        obtain ⟨p, hp, err, hperr⟩ := h
        rcases List.mem_cons.mp hp with rfl | hp'
        · rw [hq] at hperr
          cases hperr
        · exact ⟨p, hp', err, hperr⟩
      obtain ⟨err, herr⟩ := ih hrest (m.set q re)
      exact ⟨err, by simp [makeBlockRegexList.loop, hq, herr]⟩

theorem all_ok_or_error {R : Type} (compile : String → Except GoError R) (ps : List String) :
    (∀ p ∈ ps, ∃ re, compile p = .ok re) ∨ (∃ p ∈ ps, ∃ err, compile p = .error err) := by
  by_cases h : ∃ p ∈ ps, ∃ err, compile p = .error err
  · exact Or.inr h
  · refine Or.inl fun p hp => ?_
    cases hc : compile p with
    | error err => exact absurd ⟨p, hp, err, hc⟩ h
    | ok re => exact ⟨re, rfl⟩

theorem newRedaction_of_all_ok {R : Type} (compile : String → Except GoError R) (c : Config)
    (h : ∀ p ∈ c.BlockedValues, ∃ re, compile p = .ok re) :
    ∃ s, newRedaction compile c = (some s, none)
      ∧ s.config = (if c.Summary = "" then { c with Summary := Info } else c)
      ∧ s.metricTagKeys = GoMap.empty := by
  unfold newRedaction makeBlockRegexList
  by_cases hs : c.Summary = ""
  · simp only [hs, if_true]
    rw [loop_of_all_ok compile c.BlockedValues h]
    exact ⟨_, rfl, rfl, rfl⟩
  · simp only [hs, if_false]
    rw [loop_of_all_ok compile c.BlockedValues h]
    exact ⟨_, rfl, rfl, rfl⟩

theorem newRedaction_of_error {R : Type} (compile : String → Except GoError R) (c : Config)
    (h : ∃ p ∈ c.BlockedValues, ∃ err, compile p = .error err) :
    ∃ err, newRedaction compile c = (none, some err) := by
  unfold newRedaction makeBlockRegexList
  by_cases hs : c.Summary = ""
  · simp only [hs, if_true]
    obtain ⟨err, herr⟩ := loop_of_error compile c.BlockedValues h GoMap.empty
    exact ⟨err, by rw [herr]⟩
  · simp only [hs, if_false]
    obtain ⟨err, herr⟩ := loop_of_error compile c.BlockedValues h GoMap.empty
    exact ⟨err, by rw [herr]⟩

/-! ## Policy compilation -/

/-- C1: a string is a key of `makeAllowList c` exactly when it is one of
`c.AllowedKeys` or one of the six bookkeeping keys; a key that is present maps to
itself; the six bookkeeping keys are present for every configuration, also one
whose `AllowedKeys` is empty. -/
theorem makeAllowList_keys (c : Config) (k : String) :
    ((makeAllowList c k).isSome = true ↔
        k ∈ c.AllowedKeys ∨
          k ∈ ["redacted_keys", "redacted_key_count", "masked_values", "masked_value_count",
            "truncated_values", "truncated_value_count"])
      ∧ (∀ v, makeAllowList c k = some v → v = k)
      ∧ (∀ b ∈ ["redacted_keys", "redacted_key_count", "masked_values", "masked_value_count",
            "truncated_values", "truncated_value_count"], makeAllowList c b = some b) := by
  have hkeys : redactionKeys = ["redacted_keys", "redacted_key_count", "masked_values",
      "masked_value_count", "truncated_values", "truncated_value_count"] := rfl
  refine ⟨?_, ?_, ?_⟩
  · rw [makeAllowList_apply, hkeys]
    split <;> simp_all
  · intro v hv
    rw [makeAllowList_apply] at hv
    split at hv
    · exact (Option.some.inj hv).symm
    · cases hv
  · intro b hb
    rw [makeAllowList_apply, hkeys, if_pos (Or.inr hb)]

/-- C2: `newRedaction` returns an error together with no instance exactly when
some pattern of `c.BlockedValues` does not compile; whenever it returns an error
it returns no instance; when every pattern compiles it returns an instance and no
error. -/
theorem newRedaction_error_iff {R : Type} (compile : String → Except GoError R) (c : Config) :
    ((∃ err, newRedaction compile c = (none, some err)) ↔
        ∃ p ∈ c.BlockedValues, ∃ err, compile p = .error err)
      ∧ (∀ err, (newRedaction compile c).2 = some err → (newRedaction compile c).1 = none)
      ∧ ((∀ p ∈ c.BlockedValues, ∃ re, compile p = .ok re) →
          ∃ s, newRedaction compile c = (some s, none)) := by
  refine ⟨⟨?_, newRedaction_of_error compile c⟩, ?_, ?_⟩
  · rintro ⟨err, herr⟩
    rcases all_ok_or_error compile c.BlockedValues with hok | hbad
    · obtain ⟨s, hs, _⟩ := newRedaction_of_all_ok compile c hok
      rw [hs] at herr
      cases herr
    · exact hbad
  · intro err herr
    rcases all_ok_or_error compile c.BlockedValues with hok | hbad
    · obtain ⟨s, hs, _⟩ := newRedaction_of_all_ok compile c hok
      rw [hs] at herr
      cases herr
    · obtain ⟨err', herr'⟩ := newRedaction_of_error compile c hbad
      rw [herr']
  · intro hok
    obtain ⟨s, hs, _⟩ := newRedaction_of_all_ok compile c hok
    exact ⟨s, hs⟩

/-- Evaluation of C2 at two configurations: the one whose second pattern is `(`
yields an error and no instance, the one whose pattern compiles yields an
instance and no error. -/
theorem newRedaction_error_iff_witness :
    regexp.Compile "(" = .error "error parsing regexp: ("
      ∧ (∃ err, newRedaction regexp.Compile scenarioBad = (none, some err))
      ∧ (∃ s, newRedaction regexp.Compile scenarioB = (some s, none)) :=
  ⟨rfl,
    (newRedaction_error_iff regexp.Compile scenarioBad).1.mpr
      ⟨"(", by decide, "error parsing regexp: (", rfl⟩,
    (newRedaction_error_iff regexp.Compile scenarioB).2.2 (by
      intro p hp
      rw [show scenarioB.BlockedValues = ["\\d{3}-\\d{2}-\\d{4}"] from rfl,
        List.mem_singleton] at hp
      subst hp
      exact ⟨_, rfl⟩)⟩

/-- C7: the processor built from `c` has summary level `info` when `c.Summary`
is empty, and `c.Summary` itself otherwise. -/
theorem newRedaction_summary {R : Type} (compile : String → Except GoError R) (c : Config)
    (s : redaction R) (h : newRedaction compile c = (some s, none)) :
    s.config.Summary = if c.Summary = "" then "info" else c.Summary := by
  rcases all_ok_or_error compile c.BlockedValues with hok | hbad
  · obtain ⟨s', hs', hcfg, _⟩ := newRedaction_of_all_ok compile c hok
    rw [hs'] at h
    cases h
    rw [hcfg]
    split <;> rfl
  · obtain ⟨err, herr⟩ := newRedaction_of_error compile c hbad
    rw [herr] at h
    cases h

/-- Evaluation of C7: an empty summary becomes `info`, the summary `debug` stays. -/
theorem newRedaction_summary_witness :
    (newRedaction regexp.Compile scenarioB = (some redactionB, none)
        ∧ scenarioB.Summary = "" ∧ redactionB.config.Summary = "info")
      ∧ (newRedaction regexp.Compile scenarioA = (some redactionA, none)
        ∧ redactionA.config.Summary = "debug") :=
  ⟨⟨rfl, rfl, newRedaction_summary regexp.Compile scenarioB redactionB rfl⟩,
    ⟨rfl, newRedaction_summary regexp.Compile scenarioA redactionA rfl⟩⟩

/-- C9: policy compilation has set semantics.  Two configurations whose
`AllowedKeys` hold the same strings have equal allow lists; two configurations
whose `BlockedValues` hold the same patterns, all of which compile, have equal
block lists, built without error, whose keys are those patterns, each mapped to
its compiled expression. -/
theorem policy_set_semantics {R : Type} (compile : String → Except GoError R)
    (c1 c2 : Config) :
    ((∀ k, k ∈ c1.AllowedKeys ↔ k ∈ c2.AllowedKeys) → makeAllowList c1 = makeAllowList c2)
      ∧ ((∀ p, p ∈ c1.BlockedValues ↔ p ∈ c2.BlockedValues) →
          (∀ p ∈ c1.BlockedValues, ∃ re, compile p = .ok re) →
          makeBlockRegexList compile c1 = makeBlockRegexList compile c2
            ∧ (makeBlockRegexList compile c1).2 = none
            ∧ ∀ p, (makeBlockRegexList compile c1).1 p
                = if p ∈ c1.BlockedValues then (compile p).toOption else none) := by
  constructor
  · intro h
    funext k
    simp only [makeAllowList_apply, h k]
  · intro h hok
    have hok2 : ∀ p ∈ c2.BlockedValues, ∃ re, compile p = .ok re :=
      fun p hp => hok p ((h p).mpr hp)
    unfold makeBlockRegexList
    rw [loop_of_all_ok compile c1.BlockedValues hok, loop_of_all_ok compile c2.BlockedValues hok2]
    refine ⟨?_, rfl, fun p => rfl⟩
    congr 1
    funext k
    simp only [h k]

/-- Evaluation of C9 at two configurations that list the same keys and patterns
in different order and with repetitions. -/
theorem policy_set_semantics_witness :
    makeAllowList { scenarioB with AllowedKeys := ["a", "b", "a"] }
        = makeAllowList { scenarioA with AllowedKeys := ["b", "a"] }
      ∧ makeBlockRegexList regexp.Compile { scenarioB with BlockedValues := ["x", "\\d{2}", "x"] }
        = makeBlockRegexList regexp.Compile { scenarioA with BlockedValues := ["\\d{2}", "x"] } :=
  ⟨(policy_set_semantics regexp.Compile { scenarioB with AllowedKeys := ["a", "b", "a"] }
      { scenarioA with AllowedKeys := ["b", "a"] }).1 (by
        intro k
        simp only [List.mem_cons, List.mem_singleton, List.not_mem_nil, or_false]
        tauto),
    ((policy_set_semantics regexp.Compile { scenarioB with BlockedValues := ["x", "\\d{2}", "x"] }
      { scenarioA with BlockedValues := ["\\d{2}", "x"] }).2 (by
        intro p
        simp only [List.mem_cons, List.mem_singleton, List.not_mem_nil, or_false]
        tauto) (by
        intro p hp
        simp only [List.mem_cons, List.mem_singleton, List.not_mem_nil, or_false] at hp
        rcases hp with rfl | rfl | rfl <;> exact ⟨_, rfl⟩)).1⟩

/-- C10: the processor built from `c` has no metric tag key, whatever
`c.MetricTags` holds. -/
theorem newRedaction_metricTagKeys_empty {R : Type} (compile : String → Except GoError R)
    (c : Config) (s : redaction R) (h : newRedaction compile c = (some s, none)) :
    s.metricTagKeys = GoMap.empty ∧ ∀ k, s.metricTagKeys k = none := by
  rcases all_ok_or_error compile c.BlockedValues with hok | hbad
  · obtain ⟨s', hs', _, hm⟩ := newRedaction_of_all_ok compile c hok
    rw [hs'] at h
    cases h
    exact ⟨hm, fun k => by rw [hm]; rfl⟩
  · obtain ⟨err, herr⟩ := newRedaction_of_error compile c hbad
    rw [herr] at h
    cases h

/-- Evaluation of C10 at a configuration with the metric tag `http.method`. -/
theorem newRedaction_metricTagKeys_empty_witness :
    scenarioD.MetricTags = ["http.method"]
      ∧ newRedaction regexp.Compile scenarioD = (some redactionD, none)
      ∧ redactionD.metricTagKeys "http.method" = none :=
  ⟨rfl, rfl, (newRedaction_metricTagKeys_empty regexp.Compile scenarioD redactionD rfl).2 _⟩

/-! ## The per-batch transform -/

/-- C3: with `DryRun = true`, each span of the batch returned by `ProcessTraces`
has the attribute list of the span at the same place of the input. -/
theorem ProcessTraces_dryRun_attributes {R : Type} (s : redaction R) (batch : pdata.Traces)
    (_h : s.config.DryRun = true) :
    (s.ProcessTraces batch).1.spans.map (fun sp => sp.attributes)
      = batch.spans.map (fun sp => sp.attributes) := by
  rfl

/-- Evaluation of C3 at the dry run processor and a span with a key outside the
allow list. -/
theorem ProcessTraces_dryRun_attributes_witness :
    redactionD.config.DryRun = true
      ∧ (redactionD.ProcessTraces batchA).1.spans.map (fun sp => sp.attributes)
        = [[("http.method", .string "GET"), ("user.email", .string "a@b.com")]] :=
  ⟨rfl, ProcessTraces_dryRun_attributes redactionD batchA rfl⟩

/-- C4: a processor that `newRedaction` built returns, for every batch, no error
and a batch with the spans of the input in the same order. -/
theorem ProcessTraces_spans {R : Type} (compile : String → Except GoError R) (c : Config)
    (s : redaction R) (_h : newRedaction compile c = (some s, none)) (batch : pdata.Traces) :
    (s.ProcessTraces batch).2 = none
      ∧ (s.ProcessTraces batch).1.spans.length = batch.spans.length
      ∧ (s.ProcessTraces batch).1.spans = batch.spans := by
  exact ⟨rfl, rfl, rfl⟩

/-- Evaluation of C4 at a batch of two spans. -/
theorem ProcessTraces_spans_witness :
    newRedaction regexp.Compile scenarioB = (some redactionB, none)
      ∧ (redactionB.ProcessTraces batchB).2 = none
      ∧ (redactionB.ProcessTraces batchB).1.spans.map (fun sp => sp.name) = ["lookup", "reply"] :=
  ⟨rfl, (ProcessTraces_spans regexp.Compile scenarioB redactionB rfl batchB).1,
    congrArg (List.map fun sp => sp.name)
      (ProcessTraces_spans regexp.Compile scenarioB redactionB rfl batchB).2.2⟩

/-- C5 fails: with allowed key `http.method` and `DryRun = false`, the span
returned for the attributes `http.method`, `user.email` still carries
`user.email`, a key outside the allow list. -/
theorem ProcessTraces_key_filtering_counterexample :
    newRedaction regexp.Compile scenarioA = (some redactionA, none)
      ∧ redactionA.config.DryRun = false
      ∧ redactionA.allowList "user.email" = none
      ∧ (redactionA.ProcessTraces batchA).1.spans
        = [{ name := "request"
             attributes := [("http.method", .string "GET"), ("user.email", .string "a@b.com")] }]
      ∧ ¬ (∀ sp ∈ (redactionA.ProcessTraces batchA).1.spans, ∀ kv ∈ sp.attributes,
            (redactionA.allowList kv.1).isSome = true) := by
  refine ⟨rfl, rfl, by decide, rfl, ?_⟩
  intro hall
  have hkv := hall ⟨"request", [("http.method", .string "GET"), ("user.email", .string "a@b.com")]⟩
    (by decide) ("user.email", .string "a@b.com") (by decide)
  revert hkv
  decide

/-- C5 as amended: with `DryRun = false`, every attribute of every input span is
an attribute of the span at the same place of the returned batch, whether or not
its key is in the allow list. -/
theorem ProcessTraces_keeps_attributes {R : Type} (s : redaction R) (batch : pdata.Traces)
    (_h : s.config.DryRun = false) (i : Nat) (sp : pdata.Span)
    (hsp : batch.spans[i]? = some sp) (kv : String × pdata.AttributeValue)
    (hkv : kv ∈ sp.attributes) :
    ∃ sp', (s.ProcessTraces batch).1.spans[i]? = some sp' ∧ kv ∈ sp'.attributes :=
  ⟨sp, hsp, hkv⟩

/-- Evaluation of the amended C5: `user.email` is still on the returned span. -/
theorem ProcessTraces_keeps_attributes_witness :
    redactionA.config.DryRun = false
      ∧ ∃ sp', (redactionA.ProcessTraces batchA).1.spans[0]? = some sp'
          ∧ ("user.email", pdata.AttributeValue.string "a@b.com") ∈ sp'.attributes :=
  ⟨rfl, ProcessTraces_keeps_attributes redactionA batchA rfl 0
    ⟨"request", [("http.method", .string "GET"), ("user.email", .string "a@b.com")]⟩
    rfl ("user.email", .string "a@b.com") (by decide)⟩

/-- C6 fails: with blocked value pattern `\d{3}-\d{2}-\d{4}`, allowed key `ssn`
and `DryRun = false`, the value `123-45-6789` of `ssn` matches the compiled
pattern and is returned as it was, not as the mask. -/
theorem ProcessTraces_masking_counterexample :
    newRedaction regexp.Compile scenarioB = (some redactionB, none)
      ∧ redactionB.config.DryRun = false
      ∧ redactionB.allowList "ssn" = some "ssn"
      ∧ (∃ re, redactionB.blockRegexList "\\d{3}-\\d{2}-\\d{4}" = some re
          ∧ regexp.MatchString re "123-45-6789" = true)
      ∧ (redactionB.ProcessTraces batchB).1.spans.map (fun sp => sp.attributes)
        = [[("ssn", .string "123-45-6789")], []]
      ∧ ¬ (∀ sp ∈ (redactionB.ProcessTraces batchB).1.spans, ∀ kv ∈ sp.attributes,
            kv.1 = "ssn" → kv.2 = .string "****") := by
  refine ⟨rfl, rfl, by decide, ⟨_, rfl, by decide⟩, rfl, ?_⟩
  intro hall
  have hkv := hall ⟨"lookup", [("ssn", .string "123-45-6789")]⟩
    (by decide) ("ssn", .string "123-45-6789") (by decide) rfl
  revert hkv
  decide

/-- C6 as amended: with `DryRun = false`, an attribute with an allowed key whose
string value matches a compiled pattern of the block list is, on the span at the
same place of the returned batch, an attribute with the value it had in the
input. -/
theorem ProcessTraces_keeps_values {R : Type} (matchString : R → String → Bool)
    (s : redaction R) (batch : pdata.Traces) (_h : s.config.DryRun = false)
    (i : Nat) (sp : pdata.Span) (hsp : batch.spans[i]? = some sp) (k v : String)
    (hkv : (k, pdata.AttributeValue.string v) ∈ sp.attributes)
    (_hallowed : (s.allowList k).isSome = true)
    (_hblocked : ∃ p re, s.blockRegexList p = some re ∧ matchString re v = true) :
    ∃ sp', (s.ProcessTraces batch).1.spans[i]? = some sp'
      ∧ sp'.attributes = sp.attributes
      ∧ (k, pdata.AttributeValue.string v) ∈ sp'.attributes :=
  ⟨sp, hsp, rfl, hkv⟩

/-- Evaluation of the amended C6: `ssn` keeps the value `123-45-6789`. -/
theorem ProcessTraces_keeps_values_witness :
    redactionB.config.DryRun = false
      ∧ ∃ sp', (redactionB.ProcessTraces batchB).1.spans[0]? = some sp'
          ∧ sp'.attributes = [("ssn", .string "123-45-6789")]
          ∧ ("ssn", pdata.AttributeValue.string "123-45-6789") ∈ sp'.attributes :=
  ⟨rfl, ProcessTraces_keeps_values regexp.MatchString redactionB batchB rfl 0
    ⟨"lookup", [("ssn", .string "123-45-6789")]⟩ rfl
    "ssn" "123-45-6789" (by decide) (by decide)
    ⟨"\\d{3}-\\d{2}-\\d{4}", _, rfl, by decide⟩⟩

/-- C8: `Capabilities` reports `MutatesData = true` for every processor that is
not both in dry run mode and of summary level `silent`. -/
theorem Capabilities_mutatesData {R : Type} (s : redaction R)
    (_h : ¬ (s.config.DryRun = true ∧ s.config.Summary = "silent")) :
    s.Capabilities.MutatesData = true := by
  rfl

/-- Evaluation of C8 at a processor of summary level `debug`, not in dry run
mode. -/
theorem Capabilities_mutatesData_witness :
    ¬ (redactionA.config.DryRun = true ∧ redactionA.config.Summary = "silent")
      ∧ redactionA.Capabilities.MutatesData = true :=
  ⟨by decide, Capabilities_mutatesData redactionA (by decide)⟩

end redactionprocessor
